import Mathlib

/-!
Verification of the task-tree core of `src/main.py` (an LLM-driven to-do list app).

The embedding models:
* Python runtime values that can appear in the session's `todo_list`
  (strings, numbers, booleans, `None`, lists, dicts) as the inductive `PyVal`;
  Python lists are `pnil`/`pcons` chains and dicts are `dnil`/`dcons` chains
  in insertion order (Python 3.7+ dicts preserve insertion order; `__setitem__`
  overwrites the value in place when the key exists, else appends).
* `render_tasks` (main.py lines 45-104): the recursive render/normalize/aggregate
  traversal. Streamlit widgets are modelled as follows: `st.checkbox` with key
  `chk_<path>` returns the widget state, modelled by a function
  `chk : List Nat -> Bool -> Bool` from the node's index path and the value
  passed to the widget (the stored flag); an untouched widget returns the stored
  value, i.e. `chk = pyChkId`. Buttons are not pressed during a plain render
  (a pressed button triggers `st.rerun`, aborting the traversal, so each
  button action is modelled as its own function: `addSubtask`, `deleteM`).
  A Python exception during the traversal (AttributeError on `.get` of a
  non-dict, KeyError on a missing `item['task']`) is modelled as `none`.
  The `fuel` argument bounds the call depth, as Python's recursion limit does;
  all theorems are stated for sufficient fuel.
* The response-handling block of `main` (main.py lines 154-162): `.strip()`,
  the two `.replace` calls, `json.loads`, and the `try/except` that decides
  between replacing the list and storing a conversational message. `json.loads`
  is modelled by a recursive-descent parser `json_loads` following the JSON
  grammar accepted by CPython's `json` module (whitespace ` \t\n\r`, the
  constants `NaN`/`Infinity`/`-Infinity`, number lexemes per its NUMBER_RE
  regex, strings with the standard escapes; `\u` escapes are mapped through
  `Char.ofNat` without surrogate pairing, which none of the inputs used here
  exercise). Number values are kept as their lexemes, which is enough because
  no verified behaviour inspects numeric magnitude.
-/

/-- Model of a Python runtime value as stored in `st.session_state.todo_list`.
Lists are `pnil`/`pcons` chains; dicts are `dnil`/`dcons` chains. -/
inductive PyVal where
  | pstr (s : String)
  | pnum (lex : String)
  | pbool (b : Bool)
  | pnone
  | pnil
  | pcons (hd tl : PyVal)
  | dnil
  | dcons (key : String) (val : PyVal) (rest : PyVal)
deriving DecidableEq, Repr

open PyVal

/-- Char constants for the brace characters (used by the JSON parser). -/
def openBrace : Char := Char.ofNat 123

/-- Closing brace character. -/
def closeBrace : Char := Char.ofNat 125

/-- Python dict lookup `d[k]` / `d.get(k)`: first (and only) matching key. -/
def dlookup : PyVal → String → Option PyVal
  | dcons k1 v1 rest, k => if k1 = k then some v1 else dlookup rest k
  | _, _ => none

/-- Python dict item assignment `d[k] = v`: overwrite in place if the key
exists, else append at the end (insertion order). -/
def dictInsert : PyVal → String → PyVal → PyVal
  | dnil, k, v => dcons k v dnil
  | dcons k1 v1 rest, k, v =>
    if k1 = k then dcons k1 v rest else dcons k1 v1 (dictInsert rest k v)
  | other, _, _ => other

/-- Model of `isinstance(x, dict)` on well-formed chain representations. -/
def isDictV : PyVal → Bool
  | dnil => true
  | dcons _ _ rest => isDictV rest
  | _ => false

/-- Model of `isinstance(x, list)` (main.py lines 80, 95) on well-formed
chain representations. -/
def isListV : PyVal → Bool
  | pnil => true
  | pcons _ tl => isListV tl
  | _ => false

/-- Python `list.append`: add one element at the end (main.py line 82). -/
def pyAppend : PyVal → PyVal → PyVal
  | pnil, x => pcons x pnil
  | pcons h t, x => pcons h (pyAppend t x)
  | v, _ => v

/-- Does a JSON number lexeme denote zero (mantissa digits all `0`)? Used
only for Python truthiness of numbers. -/
def numLexZero (lex : String) : Bool :=
  (lex.data.takeWhile (fun c => !(c = 'e' || c = 'E'))).all
    (fun c => c = '0' || c = '-' || c = '.')

/-- Python truthiness of a value (`if x:`). -/
def pyTruthy : PyVal → Bool
  | pstr s => !(s = "")
  | pnum lex => !(numLexZero lex)
  | pbool b => b
  | pnone => false
  | pnil => false
  | pcons _ _ => true
  | dnil => false
  | dcons _ _ _ => true

/-- The dict literal that both normalization (main.py line 52) and the
add-subtask handler (lines 82-86) build from a text:
`\x7b"task": t, "priority": "Medium", "completed": False\x7d`. -/
def leafDict (t : String) : PyVal :=
  dcons "task" (pstr t) (dcons "priority" (pstr "Medium") (dcons "completed" (pbool false) dnil))

/-- Normalization of one raw entry (main.py lines 50-54): a bare string is
wrapped into a fresh task dict; anything else is passed through unchanged. -/
def normalizeItem : PyVal → PyVal
  | pstr s => leafDict s
  | v => v

/-- The sub-task list that the traversal effectively uses for an item:
present-and-list, else empty (matches the guards at main.py lines 80, 95). -/
def effSubsOf (item : PyVal) : PyVal :=
  match dlookup item "sub_tasks" with
  | some sv => if isListV sv then sv else pnil
  | none => pnil

/-- Effective description of an item (main.py line 57): `.get` with default,
`none` when the item is not a dict (AttributeError). -/
def effTask (item : PyVal) : Option PyVal :=
  if isDictV item then some ((dlookup item "task").getD (pstr "No task description")) else none

/-- Effective displayed priority of an item (main.py line 57). -/
def effPriority (item : PyVal) : Option PyVal :=
  if isDictV item then some ((dlookup item "priority").getD (pstr "Medium")) else none

/-- Effective completed flag of an item (main.py line 66). -/
def effCompleted (item : PyVal) : Option PyVal :=
  if isDictV item then some ((dlookup item "completed").getD (pbool false)) else none

/-- Effective sub-task sequence of an item, `none` on a non-dict. -/
def effSubtasks (item : PyVal) : Option PyVal :=
  if isDictV item then some (effSubsOf item) else none

/-- Python `str.strip()` whitespace predicate (the ASCII whitespace
characters, which are the only ones arising here). -/
def isPySpace (c : Char) : Bool :=
  c = ' ' || c = '\t' || c = '\n' || c = '\r' || c = Char.ofNat 11 || c = Char.ofNat 12

/-- Model of Python `str.strip()`. -/
def pyStrip (s : String) : String :=
  (((s.data.dropWhile isPySpace).reverse.dropWhile isPySpace).reverse).asString

/-- The add-subtask button handler (main.py lines 79-87), acting on the
(normalized) item the button belongs to: if the entered text is non-blank,
ensure `sub_tasks` is a list and append a fresh leaf dict built from the
stripped text; otherwise do nothing. -/
def addSubtask (item : PyVal) (text : String) : PyVal :=
  if pyStrip text = "" then item
  else
    let item1 :=
      match dlookup item "sub_tasks" with
      | some sv => if isListV sv then item else dictInsert item "sub_tasks" pnil
      | none => dictInsert item "sub_tasks" pnil
    match dlookup item1 "sub_tasks" with
    | some sv => dictInsert item1 "sub_tasks" (pyAppend sv (leafDict (pyStrip text)))
    | none => item1

/-- The condition under which the traversal recurses into sub-tasks
(main.py line 95): the key is present and holds a list. -/
def subsToRender (item : PyVal) : Option PyVal :=
  match dlookup item "sub_tasks" with
  | some sv => if isListV sv then some sv else none
  | none => none

/-- Aliasing of the normalization copy (main.py lines 51-54): mutations made
through `item` land on the stored entry only when the entry was already a
dict; a bare string entry stays a bare string in the stored list. -/
def keepAlias (raw : PyVal) (updated : PyVal) : PyVal :=
  match raw with
  | pstr _ => raw
  | _ => updated

/-- Checkbox model for a render in which no checkbox has been touched:
the widget returns the value it was given. -/
def pyChkId : List Nat → Bool → Bool := fun _ v => v

/-- Model of `render_tasks` (main.py lines 45-104) for a render in which no
button is pressed. Arguments: the checkbox-state function, a fuel bound on
call depth (Python's recursion limit), the key path `parent_key`, the index
of the first entry at this level, and the task list. Returns
`(total_tasks, completed_tasks, the stored list after the traversal)`, or
`none` if the traversal raises (non-dict `.get`, missing `item['task']`). -/
def render_tasks (chk : List Nat → Bool → Bool) : Nat → List Nat → Nat → PyVal → Option (Nat × Nat × PyVal)
  | 0, _, _, _ => none
  | fuel + 1, path, i, tasks =>
    match tasks with
    | pnil => some (0, 0, pnil)
    | pcons raw tl =>
      let item := normalizeItem raw
      if isDictV item then
        let ns := chk (path ++ [i]) (pyTruthy ((dlookup item "completed").getD (pbool false)))
        let item1 := dictInsert item "completed" (pbool ns)
        match dlookup item1 "task" with
        | none => none
        | some _ =>
          match subsToRender item1 with
          | some sv =>
            (render_tasks chk fuel (path ++ [i]) 0 sv).bind fun (stot, scomp, sv2) =>
              (render_tasks chk fuel path (i + 1) tl).map fun (rt, rc, tl2) =>
                (1 + stot + rt, (if ns then 1 else 0) + scomp + rc,
                 pcons (keepAlias raw (dictInsert item1 "sub_tasks" sv2)) tl2)
          | none =>
            (render_tasks chk fuel path (i + 1) tl).map fun (rt, rc, tl2) =>
              (1 + rt, (if ns then 1 else 0) + rc, pcons (keepAlias raw item1) tl2)
      else none
    | _ => none

/-- JSON whitespace skipping (space, tab, newline, carriage return). -/
def skipWs : List Char → List Char
  | [] => []
  | c :: cs => if c = ' ' || c = '\t' || c = '\n' || c = '\r' then skipWs cs else c :: cs

/-- Hexadecimal digit value. -/
def hexVal (c : Char) : Option Nat :=
  if '0' ≤ c ∧ c ≤ '9' then some (c.toNat - 48)
  else if 'a' ≤ c ∧ c ≤ 'f' then some (c.toNat - 87)
  else if 'A' ≤ c ∧ c ≤ 'F' then some (c.toNat - 55)
  else none

/-- JSON string body scanner (after the opening quote), with the standard
escapes; raw control characters below 0x20 are rejected as CPython does. -/
def parseString : List Char → List Char → Option (String × List Char)
  | _, [] => none
  | acc, '"' :: rest => some (acc.reverse.asString, rest)
  | acc, '\\' :: rest =>
    match rest with
    | '"' :: r => parseString ('"' :: acc) r
    | '\\' :: r => parseString ('\\' :: acc) r
    | '/' :: r => parseString ('/' :: acc) r
    | 'b' :: r => parseString (Char.ofNat 8 :: acc) r
    | 'f' :: r => parseString (Char.ofNat 12 :: acc) r
    | 'n' :: r => parseString ('\n' :: acc) r
    | 'r' :: r => parseString ('\r' :: acc) r
    | 't' :: r => parseString ('\t' :: acc) r
    | 'u' :: h1 :: h2 :: h3 :: h4 :: r =>
      match hexVal h1, hexVal h2, hexVal h3, hexVal h4 with
      | some a, some b, some c, some d =>
        parseString (Char.ofNat (((a * 16 + b) * 16 + c) * 16 + d) :: acc) r
      | _, _, _, _ => none
    | _ => none
  | acc, c :: rest => if c.toNat < 32 then none else parseString (c :: acc) rest

/-- Fractional part of a JSON number lexeme: `(\.\d+)?`, all or nothing. -/
def fracPart : List Char → (List Char × List Char)
  | '.' :: r =>
    let ds := r.takeWhile Char.isDigit
    if ds = [] then ([], '.' :: r) else ('.' :: ds, r.dropWhile Char.isDigit)
  | cs => ([], cs)

/-- Exponent part of a JSON number lexeme: `([eE][-+]?\d+)?`, all or nothing. -/
def expPart : List Char → (List Char × List Char)
  | e :: r =>
    if e = 'e' || e = 'E' then
      match r with
      | s :: r2 =>
        if s = '+' || s = '-' then
          let ds := r2.takeWhile Char.isDigit
          if ds = [] then ([], e :: r) else (e :: s :: ds, r2.dropWhile Char.isDigit)
        else
          let ds := r.takeWhile Char.isDigit
          if ds = [] then ([], e :: r) else (e :: ds, r.dropWhile Char.isDigit)
      | [] => ([], [e])
    else ([], e :: r)
  | [] => ([], [])

/-- JSON number lexeme per CPython's `NUMBER_RE`:
`(-?(?:0|[1-9]\d*))(\.\d+)?([eE][-+]?\d+)?`. -/
def parseNumber (cs : List Char) : Option (String × List Char) :=
  let sr : List Char × List Char :=
    match cs with
    | '-' :: r => (['-'], r)
    | _ => ([], cs)
  let ip : Option (List Char × List Char) :=
    match sr.2 with
    | '0' :: r => some (['0'], r)
    | c :: r =>
      if c.isDigit then some (c :: r.takeWhile Char.isDigit, r.dropWhile Char.isDigit)
      else none
    | [] => none
  match ip with
  | none => none
  | some (ids, r1) =>
    let fr := fracPart r1
    let ex := expPart fr.2
    some ((sr.1 ++ ids ++ fr.1 ++ ex.1).asString, ex.2)

/-- JSON array elements after the opening bracket (non-empty case):
`value (ws , value)* ws ]`. The value parser is passed in. -/
def parseElems (pv : List Char → Option (PyVal × List Char)) : Nat → List Char → Option (PyVal × List Char)
  | 0, _ => none
  | fuel + 1, cs =>
    (pv cs).bind fun (v, rest) =>
      match skipWs rest with
      | ',' :: rest2 => (parseElems pv fuel rest2).map (fun (tl, r) => (pcons v tl, r))
      | ']' :: rest2 => some (pcons v pnil, rest2)
      | _ => none

/-- JSON object members (non-empty case), accumulating into a dict chain
with Python's `dict(pairs)` semantics (a repeated key overwrites in place). -/
def parseMembers (pv : List Char → Option (PyVal × List Char)) : Nat → PyVal → List Char → Option (PyVal × List Char)
  | 0, _, _ => none
  | fuel + 1, acc, cs =>
    match cs with
    | '"' :: rest =>
      (parseString [] rest).bind fun (k, r1) =>
        match skipWs r1 with
        | ':' :: r2 =>
          (pv r2).bind fun (v, r3) =>
            match skipWs r3 with
            | ',' :: r4 => parseMembers pv fuel (dictInsert acc k v) (skipWs r4)
            | c :: r4 => if c = closeBrace then some (dictInsert acc k v, r4) else none
            | [] => none
        | _ => none
    | _ => none

/-- JSON value parser modelling CPython `json`'s scanner. Leading whitespace
is skipped; the constants `null`, `true`, `false`, `NaN`, `Infinity` and
`-Infinity` are accepted, as are strings, numbers, arrays and objects. -/
def parseVal : Nat → List Char → Option (PyVal × List Char)
  | 0, _ => none
  | fuel + 1, cs =>
    match skipWs cs with
    | 'n' :: 'u' :: 'l' :: 'l' :: rest => some (pnone, rest)
    | 't' :: 'r' :: 'u' :: 'e' :: rest => some (pbool true, rest)
    | 'f' :: 'a' :: 'l' :: 's' :: 'e' :: rest => some (pbool false, rest)
    | 'N' :: 'a' :: 'N' :: rest => some (pnum "NaN", rest)
    | 'I' :: 'n' :: 'f' :: 'i' :: 'n' :: 'i' :: 't' :: 'y' :: rest => some (pnum "Infinity", rest)
    | '-' :: 'I' :: 'n' :: 'f' :: 'i' :: 'n' :: 'i' :: 't' :: 'y' :: rest => some (pnum "-Infinity", rest)
    | '"' :: rest => (parseString [] rest).map (fun (s, r) => (pstr s, r))
    | '[' :: rest =>
      match skipWs rest with
      | ']' :: rest2 => some (pnil, rest2)
      | _ => parseElems (parseVal fuel) fuel rest
    | c :: rest =>
      if c = openBrace then
        match skipWs rest with
        | c2 :: rest2 =>
          if c2 = closeBrace then some (dnil, rest2)
          else parseMembers (parseVal fuel) fuel dnil (skipWs rest)
        | [] => none
      else if c = '-' || c.isDigit then
        (parseNumber (c :: rest)).map (fun (lex, r) => (pnum lex, r))
      else none
    | [] => none

/-- Model of `json.loads` on a string: parse one value, then require only
trailing whitespace (otherwise CPython raises `Extra data`). -/
def json_loads (s : String) : Option PyVal :=
  match parseVal (2 * s.length + 4) s.data with
  | some (v, rest) => if skipWs rest = [] then some v else none
  | none => none

/-- The markdown-fence stripping applied to the raw reply (main.py line 156):
`ai_response.strip().replace("```json", "").replace("```", "")`. -/
def removeOcc : List Char → Nat → List Char → List Char
  | _, 0, cs => cs
  | pat, fuel + 1, cs =>
    match cs with
    | [] => []
    | c :: rest =>
      if pat.isPrefixOf (c :: rest) then removeOcc pat fuel (List.drop pat.length (c :: rest))
      else c :: removeOcc pat fuel rest

/-- Python `s.replace(pat, "")`: delete every non-overlapping occurrence,
scanning left to right. -/
def pyReplaceEmpty (pat : String) (s : String) : String :=
  (removeOcc pat.data s.data.length s.data).asString

/-- The whole preprocessing of main.py line 156. -/
def stripFences (s : String) : String :=
  pyReplaceEmpty "```" (pyReplaceEmpty "```json" (pyStrip s))

/-- Result of the response-handling block of `main` (main.py lines 154-162):
`replace v` when the list is wholesale replaced by the parsed value `v`,
`message s` when the raw reply is stored as a conversational answer, and
`noop` when the block does nothing (reply `None` from a provider error, or
an empty reply, which fails the `if ai_response:` truthiness guard). -/
inductive Outcome where
  | replace (v : PyVal)
  | message (s : String)
  | noop
deriving DecidableEq, Repr

/-- Model of main.py lines 154-162 applied to `get_ai_response`'s result. -/
def handleResponse : Option String → Outcome
  | none => Outcome.noop
  | some s =>
    if s = "" then Outcome.noop
    else
      match json_loads (stripFences s) with
      | some v => Outcome.replace v
      | none => Outcome.message s

/-- A forest of entries as they sit in `st.session_state.todo_list`:
`scons` is a legacy bare-string entry, `ncons` a structured task dict with
fields `task`, `priority`, `completed`, `sub_tasks` (its sub-forest), then
the remaining sibling entries. -/
inductive MForest where
  | nil : MForest
  | scons (s : String) (rest : MForest) : MForest
  | ncons (task priority : String) (completed : Bool) (subs rest : MForest) : MForest
deriving DecidableEq, Repr

/-- Number of entries in a forest, at any depth. -/
def sizeMF : MForest → Nat
  | MForest.nil => 0
  | MForest.scons _ rest => 1 + sizeMF rest
  | MForest.ncons _ _ _ subs rest => 1 + sizeMF subs + sizeMF rest

/-- Number of entries whose own `completed` flag is true (a bare string has
no flag and counts 0), at any depth. -/
def completedMF : MForest → Nat
  | MForest.nil => 0
  | MForest.scons _ rest => completedMF rest
  | MForest.ncons _ _ c subs rest =>
    (if c then 1 else 0) + completedMF subs + completedMF rest

/-- Nesting depth of a forest (levels of `sub_tasks`). -/
def depthMF : MForest → Nat
  | MForest.nil => 0
  | MForest.scons _ rest => max 1 (depthMF rest)
  | MForest.ncons _ _ _ subs rest => max (1 + depthMF subs) (depthMF rest)

/-- Embedding of a forest as the Python value holding it: a list whose
string entries stay bare strings and whose task entries are dicts with the
four fields in their canonical order. -/
def toMVal : MForest → PyVal
  | MForest.nil => pnil
  | MForest.scons s rest => pcons (pstr s) (toMVal rest)
  | MForest.ncons t p c subs rest =>
    pcons (dcons "task" (pstr t) (dcons "priority" (pstr p)
      (dcons "completed" (pbool c) (dcons "sub_tasks" (toMVal subs) dnil)))) (toMVal rest)

/-- The forest as stored after one full traversal with checkbox states
`chk`: every task dict's `completed` flag becomes the value its checkbox
returned (keyed by the node's index path); a bare-string entry is left
unchanged, because the flag was written to the transient normalization
copy. `path` and `i` locate this level, as in `render_tasks`. -/
def toggleMAux (chk : List Nat → Bool → Bool) (path : List Nat) : Nat → MForest → MForest
  | _, MForest.nil => MForest.nil
  | i, MForest.scons s rest => MForest.scons s (toggleMAux chk path (i + 1) rest)
  | i, MForest.ncons t p c subs rest =>
    MForest.ncons t p (chk (path ++ [i]) c)
      (toggleMAux chk (path ++ [i]) 0 subs) (toggleMAux chk path (i + 1) rest)

/-- The `completed_tasks` count produced by a traversal with checkbox states
`chk`: for every entry (string or dict) the value its checkbox returned. -/
def rcountM (chk : List Nat → Bool → Bool) (path : List Nat) : Nat → MForest → Nat
  | _, MForest.nil => 0
  | i, MForest.scons _ rest =>
    (if chk (path ++ [i]) false then 1 else 0) + rcountM chk path (i + 1) rest
  | i, MForest.ncons _ _ c subs rest =>
    (if chk (path ++ [i]) c then 1 else 0) + rcountM chk (path ++ [i]) 0 subs
      + rcountM chk path (i + 1) rest

/-- The bare string stored at an index path, if any. -/
def strAt : MForest → List Nat → Option String
  | MForest.nil, _ => none
  | _, [] => none
  | MForest.scons s _, [0] => some s
  | MForest.scons _ _, 0 :: _ :: _ => none
  | MForest.ncons _ _ _ _ _, [0] => none
  | MForest.ncons _ _ _ subs _, 0 :: j :: rest => strAt subs (j :: rest)
  | MForest.scons _ r, (i + 1) :: rest => strAt r (i :: rest)
  | MForest.ncons _ _ _ _ r, (i + 1) :: rest => strAt r (i :: rest)

/-- The `completed` flag of the task dict stored at an index path, if any. -/
def complAt : MForest → List Nat → Option Bool
  | MForest.nil, _ => none
  | _, [] => none
  | MForest.scons _ _, [0] => none
  | MForest.scons _ _, 0 :: _ :: _ => none
  | MForest.ncons _ _ c _ _, [0] => some c
  | MForest.ncons _ _ _ subs _, 0 :: j :: rest => complAt subs (j :: rest)
  | MForest.scons _ r, (i + 1) :: rest => complAt r (i :: rest)
  | MForest.ncons _ _ _ _ r, (i + 1) :: rest => complAt r (i :: rest)

/-- Number of descendants (entries strictly below) of the entry at a path:
`0` for a bare string, the size of the sub-forest for a task dict. `none`
when the path does not resolve. -/
def subDesc : MForest → List Nat → Option Nat
  | MForest.nil, _ => none
  | _, [] => none
  | MForest.scons _ _, [0] => some 0
  | MForest.scons _ _, 0 :: _ :: _ => none
  | MForest.ncons _ _ _ subs _, [0] => some (sizeMF subs)
  | MForest.ncons _ _ _ subs _, 0 :: j :: rest => subDesc subs (j :: rest)
  | MForest.scons _ r, (i + 1) :: rest => subDesc r (i :: rest)
  | MForest.ncons _ _ _ _ r, (i + 1) :: rest => subDesc r (i :: rest)

/-- The delete button of the node at a path (main.py lines 90-92):
`tasks.pop(i)` on the list containing the node, reached by descending
through `sub_tasks`. The popped entry takes its whole subtree with it. -/
def deleteM : MForest → List Nat → Option MForest
  | MForest.nil, _ => none
  | _, [] => none
  | MForest.scons _ r, [0] => some r
  | MForest.scons _ _, 0 :: _ :: _ => none
  | MForest.ncons _ _ _ _ r, [0] => some r
  | MForest.ncons t p c subs r, 0 :: j :: rest =>
    (deleteM subs (j :: rest)).map (fun subs2 => MForest.ncons t p c subs2 r)
  | MForest.scons s r, (i + 1) :: rest => (deleteM r (i :: rest)).map (MForest.scons s)
  | MForest.ncons t p c subs r, (i + 1) :: rest =>
    (deleteM r (i :: rest)).map (MForest.ncons t p c subs)

/-- Aggregation of a forest: a full untouched render (checkboxes return the
stored flags, no buttons pressed) with enough fuel for the whole forest,
projected to `(total_tasks, completed_tasks)`. -/
def aggregateM (f : MForest) : Option (Nat × Nat) :=
  (render_tasks pyChkId (sizeMF f + depthMF f + 1) [] 0 (toMVal f)).map
    (fun r => (r.1, r.2.1))

/-- The absolute widget-key path of the entry reached from base key `path`
and first index `i` by the relative index path: mirrors how `render_tasks`
extends `parent_key`. -/
def absKey (path : List Nat) (i : Nat) : List Nat → List Nat
  | [] => path
  | [j] => path ++ [i + j]
  | j :: rest => absKey (path ++ [i + j]) 0 rest

/-- A sample forest for witnesses: a root task with one completed subtask,
followed by a legacy bare-string entry. -/
def exForest : MForest :=
  MForest.ncons "Prepare launch" "High" false
    (MForest.ncons "Slides" "Medium" true MForest.nil MForest.nil)
    (MForest.scons "legacy note" MForest.nil)

/-- A sample mixed forest: a legacy bare-string entry then a task dict. -/
def exMixed : MForest :=
  MForest.scons "legacy" (MForest.ncons "Report" "High" false MForest.nil MForest.nil)

/-- A sample forest for the delete witness: a root with two descendants,
then a second root entry. -/
def exDelete : MForest :=
  MForest.ncons "Root" "Medium" false
    (MForest.scons "a" (MForest.ncons "b" "Low" true MForest.nil MForest.nil))
    (MForest.scons "tail" MForest.nil)

/-- A sample task dict with two existing subtasks, for the add-subtask
witness. -/
def exC7d : PyVal :=
  dcons "task" (pstr "Parent")
    (dcons "sub_tasks"
      (pcons (dcons "task" (pstr "a") dnil) (pcons (dcons "task" (pstr "b") dnil) pnil)) dnil)

theorem isListV_toMVal (f : MForest) : isListV (toMVal f) = true := by
  induction f <;> simp [toMVal, isListV, *]

/-- One full untouched-or-toggled render of an embedded forest succeeds and
returns the entry count, the checkbox-counted completions, and the stored
list with exactly the task dicts' flags rewritten. -/
theorem render_bridge (chk : List Nat → Bool → Bool) (f : MForest) :
    ∀ fuel path i, sizeMF f + depthMF f < fuel →
      render_tasks chk fuel path i (toMVal f)
        = some (sizeMF f, rcountM chk path i f, toMVal (toggleMAux chk path i f)) := by
  induction f with
  | nil =>
    intro fuel path i h
    match fuel with
    | fuel + 1 => rfl
  | scons s rest ih =>
    intro fuel path i h
    match fuel with
    | fuel + 1 =>
      have hb : sizeMF rest + depthMF rest < fuel := by
        simp only [sizeMF, depthMF] at h; omega
      simp only [toMVal, render_tasks, normalizeItem, leafDict, isDictV, dlookup, dictInsert,
        subsToRender, keepAlias, pyTruthy]
      simp only [String.reduceEq, if_false, if_true, reduceCtorEq]
      rw [ih fuel path (i + 1) hb]
      simp [sizeMF, rcountM, toggleMAux, toMVal, keepAlias]
  | ncons t p c subs rest ihs ihr =>
    intro fuel path i h
    match fuel with
    | fuel + 1 =>
      have hbs : sizeMF subs + depthMF subs < fuel := by
        simp only [sizeMF, depthMF] at h; omega
      have hbr : sizeMF rest + depthMF rest < fuel := by
        simp only [sizeMF, depthMF] at h; omega
      simp only [toMVal, render_tasks, normalizeItem, leafDict, isDictV, dlookup, dictInsert,
        subsToRender, keepAlias, pyTruthy, isListV_toMVal]
      simp only [String.reduceEq, if_false, if_true, reduceCtorEq]
      simp only [Option.getD_some, isListV_toMVal, eq_self_iff_true, if_true]
      rw [ihs fuel (path ++ [i]) 0 hbs, ihr fuel path (i + 1) hbr]
      simp [sizeMF, rcountM, toggleMAux, toMVal, dictInsert, keepAlias]

theorem toggleMAux_id (f : MForest) : ∀ path i, toggleMAux pyChkId path i f = f := by
  induction f <;> intro path i <;> simp [toggleMAux, pyChkId, *]

theorem rcountM_id (f : MForest) : ∀ path i, rcountM pyChkId path i f = completedMF f := by
  induction f <;> intro path i <;> simp [rcountM, completedMF, pyChkId, *]

theorem aggregateM_eq (f : MForest) : aggregateM f = some (sizeMF f, completedMF f) := by
  unfold aggregateM
  rw [render_bridge pyChkId f (sizeMF f + depthMF f + 1) [] 0 (by omega)]
  simp [toggleMAux_id, rcountM_id]

theorem deleteM_sizeMF (f : MForest) : ∀ (path : List Nat) (m : Nat), subDesc f path = some m →
    ∃ f2, deleteM f path = some f2 ∧ sizeMF f = sizeMF f2 + 1 + m := by
  induction f with
  | nil => intro path m h; simp [subDesc] at h
  | scons s rest ih =>
    intro path m h
    rcases path with _ | ⟨i, rest2⟩
    · simp [subDesc] at h
    rcases i with _ | i
    · rcases rest2 with _ | ⟨j, rest3⟩
      · simp [subDesc] at h
        exact ⟨rest, by simp [deleteM], by simp [sizeMF]; omega⟩
      · simp [subDesc] at h
    · simp only [subDesc] at h
      obtain ⟨f2, hd, hs⟩ := ih (i :: rest2) m h
      exact ⟨MForest.scons s f2, by simp [deleteM, hd], by simp [sizeMF]; omega⟩
  | ncons t p c subs rest ihs ihr =>
    intro path m h
    rcases path with _ | ⟨i, rest2⟩
    · simp [subDesc] at h
    rcases i with _ | i
    · rcases rest2 with _ | ⟨j, rest3⟩
      · simp [subDesc] at h
        exact ⟨rest, by simp [deleteM], by simp [sizeMF]; omega⟩
      · simp only [subDesc] at h
        obtain ⟨f2, hd, hs⟩ := ihs (j :: rest3) m h
        exact ⟨MForest.ncons t p c f2 rest, by simp [deleteM, hd], by simp [sizeMF]; omega⟩
    · simp only [subDesc] at h
      obtain ⟨f2, hd, hs⟩ := ihr (i :: rest2) m h
      exact ⟨MForest.ncons t p c subs f2, by simp [deleteM, hd], by simp [sizeMF]; omega⟩

theorem absKey_zero (q : List Nat) : ∀ path, absKey path 0 q = path ++ q := by
  induction q with
  | nil => intro path; simp [absKey]
  | cons j tail ih =>
    intro path
    rcases tail with _ | ⟨k, rest⟩
    · simp [absKey]
    · show absKey (path ++ [0 + j]) 0 (k :: rest) = path ++ j :: k :: rest
      rw [ih (path ++ [0 + j])]
      simp

theorem absKey_shift (path : List Nat) (i j : Nat) (rest : List Nat) :
    absKey path i ((j + 1) :: rest) = absKey path (i + 1) (j :: rest) := by
  have harith : i + (j + 1) = (i + 1) + j := by omega
  rcases rest with _ | ⟨k, rest2⟩
  · simp [absKey]; omega
  · show absKey (path ++ [i + (j + 1)]) 0 (k :: rest2) = absKey (path ++ [(i + 1) + j]) 0 (k :: rest2)
    rw [harith]

theorem strAt_toggle (chk : List Nat → Bool → Bool) (f : MForest) :
    ∀ q path i, strAt (toggleMAux chk path i f) q = strAt f q := by
  induction f with
  | nil => intro q path i; simp [toggleMAux]
  | scons s rest ih =>
    intro q path i
    rcases q with _ | ⟨a, q2⟩
    · simp [strAt]
    rcases a with _ | a
    · rcases q2 with _ | ⟨b, q3⟩ <;> simp [toggleMAux, strAt]
    · simp only [toggleMAux, strAt]
      exact ih (a :: q2) path (i + 1)
  | ncons t p c subs rest ihs ihr =>
    intro q path i
    rcases q with _ | ⟨a, q2⟩
    · simp [strAt]
    rcases a with _ | a
    · rcases q2 with _ | ⟨b, q3⟩
      · simp [toggleMAux, strAt]
      · simp only [toggleMAux, strAt]
        exact ihs (b :: q3) (path ++ [i]) 0
    · simp only [toggleMAux, strAt]
      exact ihr (a :: q2) path (i + 1)

theorem complAt_toggle (chk : List Nat → Bool → Bool) (f : MForest) :
    ∀ (q path : List Nat) (i : Nat) (b : Bool), complAt f q = some b →
      complAt (toggleMAux chk path i f) q = some (chk (absKey path i q) b) := by
  induction f with
  | nil => intro q path i b h; simp [complAt] at h
  | scons s rest ih =>
    intro q path i b h
    rcases q with _ | ⟨a, q2⟩
    · simp [complAt] at h
    rcases a with _ | a
    · rcases q2 with _ | ⟨j, q3⟩ <;> simp [complAt] at h
    · rw [absKey_shift]
      simp only [toggleMAux, complAt] at h ⊢
      exact ih (a :: q2) path (i + 1) b h
  | ncons t p c subs rest ihs ihr =>
    intro q path i b h
    rcases q with _ | ⟨a, q2⟩
    · simp [complAt] at h
    rcases a with _ | a
    · rcases q2 with _ | ⟨j, q3⟩
      · simp only [complAt, Option.some.injEq] at h
        subst h
        simp [toggleMAux, complAt, absKey]
      · simp only [toggleMAux, complAt] at h ⊢
        rw [ihs (j :: q3) (path ++ [i]) 0 b h]
        simp [absKey]
    · rw [absKey_shift]
      simp only [toggleMAux, complAt] at h ⊢
      exact ihr (a :: q2) path (i + 1) b h

theorem dlookup_dictInsert_self (d : PyVal) : ∀ (k : String) (v : PyVal), isDictV d = true →
    dlookup (dictInsert d k v) k = some v := by
  induction d with
  | dnil => intro k v _; simp [dictInsert, dlookup]
  | dcons k1 v1 rest ihv ihr =>
    intro k v hd
    by_cases h1 : k1 = k <;>
      simp [dictInsert, dlookup, h1, ihr k v (by simpa [isDictV] using hd)]
  | pstr s => intro k v hd; simp [isDictV] at hd
  | pnum lex => intro k v hd; simp [isDictV] at hd
  | pbool b => intro k v hd; simp [isDictV] at hd
  | pnone => intro k v hd; simp [isDictV] at hd
  | pnil => intro k v hd; simp [isDictV] at hd
  | pcons hd2 tl _ _ => intro k v hd; simp [isDictV] at hd

theorem dlookup_dictInsert_ne (d : PyVal) : ∀ (k : String) (v : PyVal) (k2 : String), k2 ≠ k →
    dlookup (dictInsert d k v) k2 = dlookup d k2 := by
  induction d with
  | dnil =>
    intro k v k2 hne
    have h2 : ¬ (k = k2) := fun hh => hne hh.symm
    simp [dictInsert, dlookup, h2]
  | dcons k1 v1 rest ihv ihr =>
    intro k v k2 hne
    by_cases h1 : k1 = k
    · subst h1
      have h2 : ¬ (k1 = k2) := fun hh => hne hh.symm
      simp [dictInsert, dlookup, h2]
    · by_cases h2 : k1 = k2
      · subst h2
        simp [dictInsert, dlookup, h1]
      · simp [dictInsert, dlookup, h1, h2, ihr k v k2 hne]
  | pstr s => intro k v k2 _; simp [dictInsert]
  | pnum lex => intro k v k2 _; simp [dictInsert]
  | pbool b => intro k v k2 _; simp [dictInsert]
  | pnone => intro k v k2 _; simp [dictInsert]
  | pnil => intro k v k2 _; simp [dictInsert]
  | pcons hd2 tl _ _ => intro k v k2 _; simp [dictInsert]

theorem isDictV_dictInsert (d : PyVal) : ∀ (k : String) (v : PyVal),
    isDictV (dictInsert d k v) = isDictV d := by
  induction d with
  | dnil => intro k v; simp [dictInsert, isDictV]
  | dcons k1 v1 rest ihv ihr =>
    intro k v
    by_cases h1 : k1 = k <;> simp [dictInsert, isDictV, h1, ihr]
  | pstr s => intro k v; simp [dictInsert]
  | pnum lex => intro k v; simp [dictInsert]
  | pbool b => intro k v; simp [dictInsert]
  | pnone => intro k v; simp [dictInsert]
  | pnil => intro k v; simp [dictInsert]
  | pcons hd2 tl _ _ => intro k v; simp [dictInsert]

theorem dictInsert_dictInsert (d : PyVal) : ∀ (k : String) (v1 v2 : PyVal),
    dictInsert (dictInsert d k v1) k v2 = dictInsert d k v2 := by
  induction d with
  | dnil => intro k v1 v2; simp [dictInsert]
  | dcons k1 w rest ihv ihr =>
    intro k v1 v2
    by_cases h1 : k1 = k <;> simp [dictInsert, h1, ihr]
  | pstr s => intro k v1 v2; simp [dictInsert]
  | pnum lex => intro k v1 v2; simp [dictInsert]
  | pbool b => intro k v1 v2; simp [dictInsert]
  | pnone => intro k v1 v2; simp [dictInsert]
  | pnil => intro k v1 v2; simp [dictInsert]
  | pcons hd2 tl _ _ => intro k v1 v2; simp [dictInsert]

theorem isListV_pyAppend (l x : PyVal) (h : isListV l = true) : isListV (pyAppend l x) = true := by
  induction l with
  | pnil => simp [pyAppend, isListV]
  | pcons hd2 tl _ iht => simp [pyAppend, isListV] at h ⊢; exact iht h
  | pstr s => simp [isListV] at h
  | pnum lex => simp [isListV] at h
  | pbool b => simp [isListV] at h
  | pnone => simp [isListV] at h
  | dnil => simp [isListV] at h
  | dcons k v rest _ _ => simp [isListV] at h

theorem isListV_effSubsOf (d : PyVal) : isListV (effSubsOf d) = true := by
  unfold effSubsOf
  rcases dlookup d "sub_tasks" with _ | sv
  · simp [isListV]
  · by_cases h : isListV sv = true <;> simp [h, isListV]

theorem addSubtask_eq (d : PyVal) (t : String) (hd : isDictV d = true) (hne : pyStrip t ≠ "") :
    addSubtask d t = dictInsert d "sub_tasks" (pyAppend (effSubsOf d) (leafDict (pyStrip t))) := by
  have hself : ∀ (k : String) (v : PyVal), dlookup (dictInsert d k v) k = some v :=
    fun k v => dlookup_dictInsert_self d k v hd
  unfold addSubtask effSubsOf
  rcases hlk : dlookup d "sub_tasks" with _ | sv
  · simp [hne, hlk, hself, dictInsert_dictInsert]
  · by_cases hl : isListV sv = true
    · simp [hne, hlk, hl]
    · simp [hne, hlk, hl, hself, dictInsert_dictInsert]

/-- Claim C1, counterexample: on the reply text `"42"` the fence-stripped
text JSON-parses to the number `42`, which is not an array, yet the code
replaces the list with it instead of returning the message `"42"`
(main.py lines 157-158 never check the parsed value's shape). -/
theorem claim_C1_cex :
    json_loads (stripFences "42") = some (pnum "42")
      ∧ isListV (pnum "42") = false
      ∧ handleResponse (some "42") = Outcome.replace (pnum "42")
      ∧ handleResponse (some "42") ≠ Outcome.message "42" := by decide

/-- Claim C1, amended: for a nonempty reply, a successful JSON parse of the
stripped text yields `Replace` carrying the parsed value whatever its shape
(array or not), and `Message` with the original pre-strip text is returned
exactly when parsing fails. -/
theorem claim_C1 (s : String) (hs : s ≠ "") :
    (∀ v, json_loads (stripFences s) = some v → handleResponse (some s) = Outcome.replace v)
      ∧ (json_loads (stripFences s) = none → handleResponse (some s) = Outcome.message s) := by
  constructor
  · intro v hv; simp [handleResponse, hs, hv]
  · intro hv; simp [handleResponse, hs, hv]

/-- Witness for C1's amended theorem at the concrete reply `"42"`. -/
theorem claim_C1_witness : handleResponse (some "42") = Outcome.replace (pnum "42") :=
  (claim_C1 "42" (by decide)).1 (pnum "42") (by decide)

/-- Claim C2: aggregating a forest (a full untouched render) returns exactly
(number of nodes at any depth, number of nodes whose own completed flag is
true); completion never propagates between parents and children. -/
theorem claim_C2 (f : MForest) : aggregateM f = some (sizeMF f, completedMF f) :=
  aggregateM_eq f

/-- Claim C3, counterexample: interpreting `"[1,2,3]"` does yield a
replacement with the three numbers, but the numbers are not normalized into
task dicts (`normalizeItem` only wraps bare strings), so the subsequent
traversal raises AttributeError (`int` has no `.get`) instead of producing
leaf nodes. -/
theorem claim_C3_cex :
    handleResponse (some "[1,2,3]")
        = Outcome.replace (pcons (pnum "1") (pcons (pnum "2") (pcons (pnum "3") pnil)))
      ∧ normalizeItem (pnum "1") = pnum "1"
      ∧ render_tasks pyChkId 5 [] 0 (pcons (pnum "1") (pcons (pnum "2") (pcons (pnum "3") pnil)))
          = none := by decide

/-- Claim C3, amended: interpreting `"[1,2,3]"` yields `Replace` carrying
the raw numbers unnormalized; traversing that forest then fails for every
recursion budget (the first numeric element raises at the `.get` call),
while a forest of bare-string entries is normalized and traversed without
error. -/
theorem claim_C3 :
    handleResponse (some "[1,2,3]")
        = Outcome.replace (pcons (pnum "1") (pcons (pnum "2") (pcons (pnum "3") pnil)))
      ∧ (∀ fuel, render_tasks pyChkId fuel [] 0
            (pcons (pnum "1") (pcons (pnum "2") (pcons (pnum "3") pnil))) = none)
      ∧ (∀ s : String, render_tasks pyChkId 2 [] 0 (pcons (pstr s) pnil)
            = some (1, 0, pcons (pstr s) pnil)) := by
  refine ⟨by decide, fun fuel => ?_, fun s => rfl⟩
  cases fuel with
  | zero => rfl
  | succ n => rfl

/-- Claim C4: the fenced reply parses to a one-element list whose element
normalizes (unchanged, as it is already a dict) to effective description
"Buy milk", priority Medium, completed false, and no subtasks. -/
theorem claim_C4 :
    handleResponse (some "```json\n[\x7b\"task\":\"Buy milk\"\x7d]\n```")
        = Outcome.replace (pcons (dcons "task" (pstr "Buy milk") dnil) pnil)
      ∧ normalizeItem (dcons "task" (pstr "Buy milk") dnil) = dcons "task" (pstr "Buy milk") dnil
      ∧ effTask (dcons "task" (pstr "Buy milk") dnil) = some (pstr "Buy milk")
      ∧ effPriority (dcons "task" (pstr "Buy milk") dnil) = some (pstr "Medium")
      ∧ effCompleted (dcons "task" (pstr "Buy milk") dnil) = some (pbool false)
      ∧ effSubtasks (dcons "task" (pstr "Buy milk") dnil) = some pnil := by decide

/-- Claim C5: normalization is idempotent on every input, and it is the
identity (hence side-effect-free) on every dict, in particular on every
already-well-formed node. -/
theorem claim_C5 :
    (∀ x : PyVal, normalizeItem (normalizeItem x) = normalizeItem x)
      ∧ (∀ (k : String) (v rest : PyVal), normalizeItem (dcons k v rest) = dcons k v rest)
      ∧ normalizeItem dnil = dnil := by
  refine ⟨fun x => ?_, fun k v rest => rfl, rfl⟩
  cases x <;> rfl

/-- Claim C6, counterexample: an empty reply does not produce
`Message("")` — the `if ai_response:` truthiness guard (main.py line 154)
skips the whole handling block. -/
theorem claim_C6_cex : handleResponse (some "") ≠ Outcome.message "" := by decide

/-- Claim C6, amended: an empty raw reply is skipped entirely by the
truthiness guard: no crash, no list replacement, and no message is stored
(a `None` reply from a failed provider call behaves the same way). -/
theorem claim_C6 :
    handleResponse (some "") = Outcome.noop ∧ handleResponse none = Outcome.noop := by decide

/-- Claim C7: on a task dict, add-subtask with text whose strip is nonempty
appends exactly one fresh leaf dict at the end of the effective subtask
sequence, leaving the existing subtasks, their order, and the other fields
unchanged; blank text is a no-op. -/
theorem claim_C7 (d : PyVal) (t : String) (hd : isDictV d = true) :
    (pyStrip t = "" → addSubtask d t = d)
      ∧ (pyStrip t ≠ "" →
          effSubtasks (addSubtask d t) = some (pyAppend (effSubsOf d) (leafDict (pyStrip t)))
            ∧ effTask (addSubtask d t) = effTask d
            ∧ effPriority (addSubtask d t) = effPriority d
            ∧ effCompleted (addSubtask d t) = effCompleted d) := by
  constructor
  · intro h0; simp [addSubtask, h0]
  · intro hne
    rw [addSubtask_eq d t hd hne]
    have hdi : isDictV (dictInsert d "sub_tasks" (pyAppend (effSubsOf d) (leafDict (pyStrip t))))
        = true := by rw [isDictV_dictInsert]; exact hd
    have hL : isListV (pyAppend (effSubsOf d) (leafDict (pyStrip t))) = true :=
      isListV_pyAppend _ _ (isListV_effSubsOf d)
    have hne2 : ∀ k2 : String, k2 ≠ "sub_tasks" →
        dlookup (dictInsert d "sub_tasks" (pyAppend (effSubsOf d) (leafDict (pyStrip t)))) k2
          = dlookup d k2 :=
      fun k2 h2 => dlookup_dictInsert_ne d "sub_tasks" _ k2 h2
    refine ⟨?_, ?_, ?_, ?_⟩
    · generalize hgen : pyAppend (effSubsOf d) (leafDict (pyStrip t)) = L at hdi hL ⊢
      have hsv := dlookup_dictInsert_self d "sub_tasks" L hd
      simp [effSubtasks, hdi, effSubsOf, hsv, hL]
    · simp [effTask, hdi, hd, hne2 "task" (by decide)]
    · simp [effPriority, hdi, hd, hne2 "priority" (by decide)]
    · simp [effCompleted, hdi, hd, hne2 "completed" (by decide)]

/-- Witness for C7 at a dict with two subtasks: blank text is a no-op and
" c " appends one leaf built from the stripped text. -/
theorem claim_C7_witness :
    addSubtask exC7d "   " = exC7d
      ∧ effSubtasks (addSubtask exC7d " c ")
          = some (pyAppend (effSubsOf exC7d) (leafDict (pyStrip " c "))) :=
  ⟨(claim_C7 exC7d "   " (by decide)).1 (by decide),
   ((claim_C7 exC7d " c " (by decide)).2 (by decide)).1⟩

/-- Claim C8: deleting the node at a resolving path (a `tasks.pop` on its
containing list) removes it together with its whole subtree: with `m` its
descendant count, the aggregate total drops by exactly `1 + m`. -/
theorem claim_C8 (f : MForest) (path : List Nat) (m : Nat) (h : subDesc f path = some m) :
    ∃ f2, deleteM f path = some f2
      ∧ aggregateM f = some (sizeMF f, completedMF f)
      ∧ aggregateM f2 = some (sizeMF f2, completedMF f2)
      ∧ sizeMF f = sizeMF f2 + 1 + m := by
  obtain ⟨f2, hdel, hs⟩ := deleteM_sizeMF f path m h
  exact ⟨f2, hdel, aggregateM_eq f, aggregateM_eq f2, hs⟩

/-- Witness for C8: deleting the first root of `exDelete` (2 descendants)
drops the total from 4 to 1. -/
theorem claim_C8_witness :
    subDesc exDelete [0] = some 2
      ∧ ∃ f2, deleteM exDelete [0] = some f2
          ∧ aggregateM exDelete = some (sizeMF exDelete, completedMF exDelete)
          ∧ aggregateM f2 = some (sizeMF f2, completedMF f2)
          ∧ sizeMF exDelete = sizeMF f2 + 1 + 2 :=
  ⟨by decide, claim_C8 exDelete [0] 2 (by decide)⟩

/-- Claim C9, counterexample: a present but unrecognized priority value
("Urgent", outside the High/Medium/Low enumeration) is displayed as-is, not
replaced by Medium — `item.get('priority', 'Medium')` only defaults on
absence. -/
theorem claim_C9_cex :
    effPriority (normalizeItem (dcons "task" (pstr "x") (dcons "priority" (pstr "Urgent") dnil)))
        = some (pstr "Urgent")
      ∧ some (pstr "Urgent") ≠ some (pstr "Medium")
      ∧ ¬(pstr "Urgent" = pstr "High" ∨ pstr "Urgent" = pstr "Medium"
          ∨ pstr "Urgent" = pstr "Low") := by decide

/-- Claim C9, amended: after normalization, a node with an absent priority
field has effective priority Medium (so does a normalized bare string), but
a present value is used as-is, with no validation against the enumeration. -/
theorem claim_C9 (d : PyVal) (hd : isDictV d = true) :
    (dlookup d "priority" = none → effPriority (normalizeItem d) = some (pstr "Medium"))
      ∧ (∀ v, dlookup d "priority" = some v → effPriority (normalizeItem d) = some v)
      ∧ (∀ s, effPriority (normalizeItem (pstr s)) = some (pstr "Medium")) := by
  have hnd : normalizeItem d = d := by
    cases d <;> first | rfl | simp [isDictV] at hd
  refine ⟨fun h0 => ?_, fun v hv => ?_, fun s => rfl⟩
  · rw [hnd]; simp [effPriority, hd, h0]
  · rw [hnd]; simp [effPriority, hd, hv]

/-- Witness for C9's amended theorem: absent priority defaults to Medium,
present priority "High" is kept. -/
theorem claim_C9_witness :
    effPriority (normalizeItem (dcons "task" (pstr "x") dnil)) = some (pstr "Medium")
      ∧ effPriority (normalizeItem (dcons "task" (pstr "y") (dcons "priority" (pstr "High") dnil)))
          = some (pstr "High") :=
  ⟨(claim_C9 (dcons "task" (pstr "x") dnil) (by decide)).1 (by decide),
   (claim_C9 (dcons "task" (pstr "y") (dcons "priority" (pstr "High") dnil)) (by decide)).2.1
     (pstr "High") (by decide)⟩

/-- Claim C10: after a traversal with arbitrary checkbox states, the stored
forest is exactly the original with every task dict's completed flag
rewritten to its checkbox value; a legacy bare-string entry is stored
unchanged (the flag write hit only the transient normalization copy), while
a structured entry's stored flag becomes the checkbox value. -/
theorem claim_C10 (chk : List Nat → Bool → Bool) (f : MForest) (fuel : Nat)
    (h : sizeMF f + depthMF f < fuel) :
    render_tasks chk fuel [] 0 (toMVal f)
        = some (sizeMF f, rcountM chk [] 0 f, toMVal (toggleMAux chk [] 0 f))
      ∧ (∀ q, strAt (toggleMAux chk [] 0 f) q = strAt f q)
      ∧ (∀ q b, complAt f q = some b → complAt (toggleMAux chk [] 0 f) q = some (chk q b)) := by
  refine ⟨render_bridge chk f fuel [] 0 h, fun q => strAt_toggle chk f q [] 0, fun q b hb => ?_⟩
  rw [complAt_toggle chk f q [] 0 b hb, absKey_zero q []]
  simp

/-- Witness for C10 on `exMixed` with every checkbox forced to true: the
legacy string at path 0 stays a bare string, the task dict at path 1 gets
its stored flag set. -/
theorem claim_C10_witness :
    render_tasks (fun _ _ => true) 10 [] 0 (toMVal exMixed)
        = some (sizeMF exMixed, rcountM (fun _ _ => true) [] 0 exMixed,
            toMVal (toggleMAux (fun _ _ => true) [] 0 exMixed))
      ∧ strAt (toggleMAux (fun _ _ => true) [] 0 exMixed) [0] = strAt exMixed [0]
      ∧ complAt (toggleMAux (fun _ _ => true) [] 0 exMixed) [1] = some true :=
  ⟨(claim_C10 (fun _ _ => true) exMixed 10 (by decide)).1,
   (claim_C10 (fun _ _ => true) exMixed 10 (by decide)).2.1 [0],
   (claim_C10 (fun _ _ => true) exMixed 10 (by decide)).2.2 [1] false (by decide)⟩

/-- A plain conversational reply (unparseable as JSON) is stored verbatim
as the chat message. -/
theorem interpret_plain_message :
    handleResponse (some "You have 3 tasks remaining.")
      = Outcome.message "You have 3 tasks remaining." := by decide
